import Mathlib

/-!
Verification development for `curio/sync.py`: cooperative-scheduler
synchronization primitives (Event, Lock, Semaphore, BoundedSemaphore,
Condition), the synchronous-context-manager adapter `_contextadapt`,
and the dispatch helper `abide`.

Shallow embedding conventions:
* A task is identified by a natural number.
* A `kqueue` of suspended tasks is a `List TaskId` in FIFO order.
* `_wait_on_queue(q, reason)` appends the calling task at the back of `q`
  and suspends it; `_reschedule_tasks(q, n)` pops up to `n` tasks from the
  front of `q` and resumes them.  These two traps are external collaborators
  of the file, so they are modelled from the spec here.
* Python exceptions surface as `Except String` values or explicit error
  constructors; an `assert` failure and a raised error are both `.error`.
-/

namespace CurioSync

abbrev TaskId := Nat

/-- Modelled from the spec: `suspend_on_queue` / `_wait_on_queue` places the
calling task at the back of the wait queue (strict FIFO). -/
def waitOnQueue (q : List TaskId) (t : TaskId) : List TaskId := q ++ [t]

/-- Modelled from the spec: `resume_from_queue` / `_reschedule_tasks` resumes
up to `n` tasks from the front of the queue, in FIFO order; safe when `n`
exceeds the queue length.  Returns (resumed tasks, remaining queue). -/
def rescheduleTasks (q : List TaskId) (n : Nat) : List TaskId × List TaskId :=
  (q.take n, q.drop n)

/-! ## Lock

`Lock.__init__`: `_acquired = False`, `_waiting = kqueue()`. -/

structure Lock where
  _acquired : Bool
  _waiting : List TaskId
deriving Repr, DecidableEq

/-- `Lock.locked`: `return self._acquired`. -/
def Lock.locked (s : Lock) : Bool := s._acquired

/-- `Lock.release`:
```
assert self._acquired, 'Lock not acquired'
if self._waiting:
    await _reschedule_tasks(self._waiting, n=1)
else:
    self._acquired = False
```
Returns the post-state together with the list of resumed tasks, or the
assertion failure. -/
def Lock.release (s : Lock) : Except String (Lock × List TaskId) :=
  if s._acquired = false then .error "Lock not acquired"
  else if s._waiting.isEmpty then .ok ({ s with _acquired := false }, [])
  else
    let (resumed, rest) := rescheduleTasks s._waiting 1
    .ok ({ s with _waiting := rest }, resumed)

/-- `Lock.acquire` when it returns: whether the fast path was taken
(`self._acquired` was false) or the task was resumed after suspending on
`_waiting`, the final statement executed is `self._acquired = True`; `cur`
is the lock state at the moment that statement runs. -/
def Lock.acquireReturn (cur : Lock) : Lock := { cur with _acquired := true }

/-- One scheduler-visible transition of a `Lock`, covering every code path
that mutates the lock state:
* `acquire_fast`: `acquire()` with `_acquired` false sets it true;
* `acquire_suspend`: `acquire()` with `_acquired` true suspends the caller
  onto `_waiting`;
* `resume_finish`: a task resumed inside `acquire()` runs
  `self._acquired = True`;
* `release_ok`: a successful `release()`;
* `cancel`: a suspended waiter is removed from the queue by the external
  suspension primitive on cancellation/timeout. -/
inductive LockStep : Lock → Lock → Prop
  | acquire_fast (s : Lock) (h : s._acquired = false) :
      LockStep s { s with _acquired := true }
  | acquire_suspend (s : Lock) (t : TaskId) (h : s._acquired = true) :
      LockStep s { s with _waiting := waitOnQueue s._waiting t }
  | resume_finish (s : Lock) :
      LockStep s { s with _acquired := true }
  | release_ok (s s' : Lock) (r : List TaskId) (h : Lock.release s = .ok (s', r)) :
      LockStep s s'
  | cancel (s : Lock) (t : TaskId) :
      LockStep s { s with _waiting := s._waiting.erase t }

/-- States reachable from a freshly constructed `Lock()`. -/
def LockReachable (s : Lock) : Prop :=
  Relation.ReflTransGen LockStep { _acquired := false, _waiting := [] } s

/-- The Lock state invariant from the spec: `held = false` implies the wait
queue is empty. -/
def LockInv (s : Lock) : Prop := s._acquired = false → s._waiting = []

/-- C1: `Lock.release` fails with the contract-violation assertion exactly
when the lock is not held; when held with a non-empty wait queue it resumes
exactly one waiter (the head) and leaves `_acquired = true`; when held with
an empty wait queue it sets `_acquired = false`. -/
theorem lock_release_contract (s : Lock) :
    (s._acquired = false → Lock.release s = .error "Lock not acquired") ∧
    (∀ e, Lock.release s = .error e → s._acquired = false) ∧
    (s._acquired = true → ∀ t rest, s._waiting = t :: rest →
      Lock.release s = .ok ({ _acquired := true, _waiting := rest }, [t])) ∧
    (s._acquired = true → s._waiting = [] →
      Lock.release s = .ok ({ _acquired := false, _waiting := [] }, [])) := by
  refine ⟨fun h => ?_, fun e he => ?_, fun h t rest hw => ?_, fun h hw => ?_⟩
  · simp [Lock.release, h]
  · by_contra hc
    simp only [Bool.not_eq_false] at hc
    simp only [Lock.release, hc] at he
    rcases hw : s._waiting.isEmpty with _ | _ <;> simp [hw] at he
  · cases s
    simp_all [Lock.release, rescheduleTasks]
  · cases s
    simp_all [Lock.release]

/-- Witness for `lock_release_contract` at concrete lock states. -/
theorem lock_release_contract_witness :
    Lock.release ⟨true, [3, 4]⟩ = .ok (⟨true, [4]⟩, [3]) ∧
    Lock.release ⟨true, []⟩ = .ok (⟨false, []⟩, []) ∧
    Lock.release ⟨false, [7]⟩ = .error "Lock not acquired" :=
  ⟨(lock_release_contract ⟨true, [3, 4]⟩).2.2.1 rfl 3 [4] rfl,
   (lock_release_contract ⟨true, []⟩).2.2.2 rfl rfl,
   (lock_release_contract ⟨false, [7]⟩).1 rfl⟩

/-- Inversion of a successful `Lock.release`: the lock was held, and the
result is either the unlock (empty queue) or the hand-off to the queue head. -/
theorem lock_release_ok_cases {s s' : Lock} {r : List TaskId}
    (h : Lock.release s = .ok (s', r)) :
    s._acquired = true ∧
      ((s._waiting = [] ∧ s' = ⟨false, []⟩ ∧ r = []) ∨
       (∃ t rest, s._waiting = t :: rest ∧ s' = ⟨true, rest⟩ ∧ r = [t])) := by
  rcases s with ⟨acq, w⟩
  cases acq
  · simp [Lock.release] at h
  · refine ⟨rfl, ?_⟩
    rcases w with _ | ⟨t, rest⟩
    · left
      simp only [Lock.release, rescheduleTasks] at h
      simp_all
    · right
      refine ⟨t, rest, rfl, ?_⟩
      simp only [Lock.release, rescheduleTasks] at h
      simp_all

/-- Every `Lock` transition, including removal of a suspended waiter by
cancellation, preserves the invariant `held = false → waiters = []`. -/
theorem lockStep_preserves_inv {s s' : Lock} (hinv : LockInv s)
    (hstep : LockStep s s') : LockInv s' := by
  cases hstep with
  | acquire_fast h => intro hc; simp at hc
  | acquire_suspend t h => intro hc; simp_all [LockInv]
  | resume_finish => intro hc; simp at hc
  | release_ok s' r h =>
      rcases lock_release_ok_cases h with ⟨hacq, hcase | hcase⟩
      · rcases hcase with ⟨hw, hs', hr⟩
        subst hs'
        intro
        rfl
      · rcases hcase with ⟨t, rest, hw, hs', hr⟩
        subst hs'
        intro hc
        simp at hc
  | cancel t =>
      intro hc
      have := hinv hc
      simp [this]

/-- C2: every state reachable from a fresh `Lock()` by any interleaving of
acquire / suspend / hand-off / release / cancellation transitions satisfies
`held = false → waiters = []`: no task is ever waiting on an unlocked lock. -/
theorem lock_inv_reachable {s : Lock} (h : LockReachable s) : LockInv s := by
  induction h with
  | refl => intro; rfl
  | tail _ hstep ih => exact lockStep_preserves_inv ih hstep

/-- Witness for `lock_inv_reachable`: a state reached by acquiring, a second
task suspending, then releasing (hand-off) satisfies the invariant. -/
theorem lock_inv_reachable_witness : LockInv { _acquired := true, _waiting := [] } :=
  lock_inv_reachable
    (Relation.ReflTransGen.tail
      (Relation.ReflTransGen.tail
        (Relation.ReflTransGen.tail Relation.ReflTransGen.refl
          (LockStep.acquire_fast ⟨false, []⟩ rfl))
        (LockStep.acquire_suspend ⟨true, []⟩ 5 rfl))
      (LockStep.release_ok ⟨true, [5]⟩ ⟨true, []⟩ [5] rfl))

/-! ## Condition

`Condition.__init__`: `_lock = lock or Lock()`, `_waiting = kqueue()`.
`locked`, `acquire`, `release` delegate to the underlying lock. -/

/-- How a task suspended in `_wait_on_queue` comes back: a normal
resumption by `_reschedule_tasks`, or a `CancelledError` / `TaskTimeout`
delivered by the kernel while suspended. -/
inductive Outcome
  | normal
  | cancelled
  | timeout
deriving Repr, DecidableEq

/-- Result of one run of `Condition.wait`: the contract-violation
`RuntimeError` raised before any state change, or an exit (normal return
when the suspension resumed normally, otherwise the propagating
cancellation/timeout) carrying the lock state at that moment. -/
inductive CondWaitResult
  | runtimeError (msg : String)
  | exits (out : Outcome) (lock : Lock)
deriving Repr, DecidableEq

/-- `Condition.wait`:
```
if not self.locked():
    raise RuntimeError("Can't wait on unacquired lock")
await self.release()
try:
    await _wait_on_queue(self._waiting, 'COND_WAIT')
finally:
    await self.acquire()
```
`lk` is the underlying lock at the call; `out` is how the suspension ends.
While the caller is suspended other tasks may operate on the lock, so the
lock state found by the `finally` re-acquire is an arbitrary
`lockAtReacquire` (which subsumes the state `release` left).  `acquire()`
always finishes with `self._acquired = True` (`Lock.acquireReturn`), on the
normal path and on the cancellation/timeout path alike, before `wait`
returns or the failure propagates. -/
def Condition.wait (lk : Lock) (out : Outcome) (lockAtReacquire : Lock) :
    CondWaitResult :=
  if Lock.locked lk = false then
    .runtimeError "Can't wait on unacquired lock"
  else
    match Lock.release lk with
    | .error e => .runtimeError e
    | .ok _ => .exits out (Lock.acquireReturn lockAtReacquire)

/-- `Condition.wait` computed by cases on whether the lock is held: the
inner `release` can never hit its assertion because the `locked()` guard
already ran. -/
theorem cond_wait_eq (lk : Lock) (out : Outcome) (lockAtReacquire : Lock) :
    Condition.wait lk out lockAtReacquire =
      if lk._acquired = false then .runtimeError "Can't wait on unacquired lock"
      else .exits out (Lock.acquireReturn lockAtReacquire) := by
  rcases lk with ⟨acq, w⟩
  cases acq
  · rfl
  · rcases w with _ | ⟨t, rest⟩ <;>
      simp [Condition.wait, Lock.locked, Lock.release, rescheduleTasks]

/-- C3: `Condition.wait` raises the `RuntimeError` contract violation iff the
underlying lock is not held at the call; otherwise, on every exit path —
normal resumption, cancellation, or timeout, and whatever other tasks did to
the lock in between — the lock has been re-acquired (`locked() = true`) when
control leaves `wait`. -/
theorem cond_wait_lock_reacquired (lk : Lock) (out : Outcome)
    (lockAtReacquire : Lock) :
    (Lock.locked lk = false ↔
      Condition.wait lk out lockAtReacquire =
        .runtimeError "Can't wait on unacquired lock") ∧
    (Lock.locked lk = true →
      Condition.wait lk out lockAtReacquire =
        .exits out (Lock.acquireReturn lockAtReacquire)) ∧
    (∀ o fl, Condition.wait lk out lockAtReacquire = .exits o fl →
      Lock.locked fl = true) := by
  rw [cond_wait_eq]
  rcases hacq : lk._acquired with _ | _
  · simp [Lock.locked, hacq, Lock.acquireReturn]
  · rw [if_neg (by simp [hacq])]
    refine ⟨⟨fun h => ?_, fun h => ?_⟩, fun _ => rfl, fun o fl hfl => ?_⟩
    · simp [Lock.locked, hacq] at h
    · simp at h
    · injection hfl with h1 h2
      subst h2
      rfl

/-- Witness for `cond_wait_lock_reacquired`: with the lock held, `wait`
interrupted by cancellation still exits with the lock re-held, even when the
lock was free just before the re-acquire. -/
theorem cond_wait_lock_reacquired_witness :
    Condition.wait ⟨true, []⟩ .cancelled ⟨false, []⟩ =
      .exits .cancelled ⟨true, []⟩ ∧
    Condition.wait ⟨false, []⟩ .normal ⟨false, []⟩ =
      .runtimeError "Can't wait on unacquired lock" :=
  ⟨(cond_wait_lock_reacquired ⟨true, []⟩ .cancelled ⟨false, []⟩).2.1 rfl,
   (cond_wait_lock_reacquired ⟨false, []⟩ .normal ⟨false, []⟩).1.mp rfl⟩

/-! ## Semaphore

`Semaphore.__init__`: `_value = value`, `_waiting = kqueue()`. -/

structure Semaphore where
  _value : Int
  _waiting : List TaskId
deriving Repr, DecidableEq

/-- `Semaphore.locked`: `return self._value == 0`. -/
def Semaphore.locked (s : Semaphore) : Bool := s._value == 0

/-- `Semaphore.acquire`:
```
if self._value <= 0:
    await _wait_on_queue(self._waiting, 'SEMA_ACQUIRE')
else:
    self._value -= 1
return True
```
Returns the post-state and whether the caller suspended. -/
def Semaphore.acquire (s : Semaphore) (t : TaskId) : Semaphore × Bool :=
  if s._value ≤ 0 then ({ s with _waiting := waitOnQueue s._waiting t }, true)
  else ({ s with _value := s._value - 1 }, false)

/-- `Semaphore.release`:
```
if self._waiting:
    await _reschedule_tasks(self._waiting, n=1)
else:
    self._value += 1
```
Returns the post-state and the list of resumed tasks. -/
def Semaphore.release (s : Semaphore) : Semaphore × List TaskId :=
  if s._waiting.isEmpty then ({ s with _value := s._value + 1 }, [])
  else
    let (resumed, rest) := rescheduleTasks s._waiting 1
    ({ s with _waiting := rest }, resumed)

inductive SemOp
  | acq (t : TaskId)
  | rel
deriving Repr, DecidableEq

def countAcq : List SemOp → Nat
  | [] => 0
  | .acq _ :: rest => countAcq rest + 1
  | .rel :: rest => countAcq rest

def countRel : List SemOp → Nat
  | [] => 0
  | .acq _ :: rest => countRel rest
  | .rel :: rest => countRel rest + 1

/-- Run a sequence of semaphore operations by one batch of tasks, failing
(`none`) at the first contention: an `acquire` that suspends, or a `release`
issued while the wait queue is non-empty (which would hand off instead of
incrementing). -/
def runSemUncontended : Semaphore → List SemOp → Option Semaphore
  | s, [] => some s
  | s, .acq t :: rest =>
      let (s', suspended) := Semaphore.acquire s t
      if suspended then none else runSemUncontended s' rest
  | s, .rel :: rest =>
      if s._waiting.isEmpty then runSemUncontended (Semaphore.release s).1 rest
      else none

/-- Along an uncontended run each `acquire` subtracts one permit and each
`release` adds one, and the wait queue is untouched. -/
theorem runSemUncontended_value (ops : List SemOp) :
    ∀ s s', runSemUncontended s ops = some s' →
      s'._value = s._value + (countRel ops : Int) - (countAcq ops : Int) ∧
      s'._waiting = s._waiting := by
  induction ops with
  | nil =>
      intro s s' h
      simp only [runSemUncontended, Option.some.injEq] at h
      subst h
      simp [countAcq, countRel]
  | cons op rest ih =>
      intro s s' h
      cases op with
      | acq t =>
          by_cases hv : s._value ≤ 0
          · simp [runSemUncontended, Semaphore.acquire, hv] at h
          · simp only [runSemUncontended, Semaphore.acquire, hv, if_neg,
              if_false, Bool.false_eq_true, not_false_eq_true] at h
            have hr := ih _ _ h
            refine ⟨?_, hr.2⟩
            rw [hr.1]
            simp only [countAcq, countRel]
            push_cast
            ring
      | rel =>
          by_cases hw : s._waiting.isEmpty
          · simp only [runSemUncontended, hw, if_true] at h
            have hr := ih _ _ h
            have hrel : (Semaphore.release s).1 =
                { s with _value := s._value + 1 } := by
              simp [Semaphore.release, hw]
            rw [hrel] at hr
            refine ⟨?_, hr.2⟩
            rw [hr.1]
            simp only [countAcq, countRel]
            push_cast
            ring
          · simp [runSemUncontended, hw] at h

/-- C8: a `Semaphore` initialized with `k` permits, after any fully
uncontended sequence of `acquire`/`release` with equal counts, is back at
exactly `k` permits. -/
theorem semaphore_uncontended_roundtrip (k : Int) (ops : List SemOp)
    (s' : Semaphore) (h : runSemUncontended ⟨k, []⟩ ops = some s')
    (hc : countAcq ops = countRel ops) : s'._value = k := by
  have hv := (runSemUncontended_value ops ⟨k, []⟩ s' h).1
  rw [hv, hc]
  ring

/-- Witness for `semaphore_uncontended_roundtrip`: two acquires then two
releases on a `Semaphore(2)` end with two permits. -/
theorem semaphore_uncontended_roundtrip_witness :
    runSemUncontended ⟨2, []⟩ [.acq 1, .acq 2, .rel, .rel] = some ⟨2, []⟩ ∧
    countAcq [.acq 1, .acq 2, .rel, .rel] = countRel [.acq 1, .acq 2, .rel, .rel] ∧
    (Semaphore.mk 2 [])._value = 2 :=
  ⟨by decide, by decide,
   semaphore_uncontended_roundtrip 2 [.acq 1, .acq 2, .rel, .rel] ⟨2, []⟩
     (by decide) (by decide)⟩

/-! ## BoundedSemaphore

`BoundedSemaphore.__init__`: `_bound_value = value`, then
`super().__init__(value)`. -/

structure BoundedSemaphore where
  _value : Int
  _bound_value : Int
  _waiting : List TaskId
deriving Repr, DecidableEq

/-- `BoundedSemaphore.release`:
```
if self._value >= self._bound_value:
    raise ValueError('BoundedSemaphore released too many times')
await super().release()
```
The base-class delegation acts on the inherited `_value`/`_waiting` fields. -/
def BoundedSemaphore.release (s : BoundedSemaphore) :
    Except String (BoundedSemaphore × List TaskId) :=
  if s._value ≥ s._bound_value then
    .error "BoundedSemaphore released too many times"
  else
    let (s', resumed) := Semaphore.release ⟨s._value, s._waiting⟩
    .ok (⟨s'._value, s._bound_value, s'._waiting⟩, resumed)

/-- Inversion of a successful `BoundedSemaphore.release`: the bound check
passed, and the result is the hand-off or the increment. -/
theorem bsem_release_ok_cases {s s' : BoundedSemaphore} {r : List TaskId}
    (h : BoundedSemaphore.release s = .ok (s', r)) :
    s._value < s._bound_value ∧
      ((s._waiting = [] ∧ s' = ⟨s._value + 1, s._bound_value, []⟩ ∧ r = []) ∨
       (∃ t rest, s._waiting = t :: rest ∧
         s' = ⟨s._value, s._bound_value, rest⟩ ∧ r = [t])) := by
  by_cases hb : s._value ≥ s._bound_value
  · simp [BoundedSemaphore.release, hb] at h
  · refine ⟨by omega, ?_⟩
    rcases hw : s._waiting with _ | ⟨t, rest⟩
    · left
      simp only [BoundedSemaphore.release, hb, if_neg, if_false,
        Semaphore.release, hw, List.isEmpty_nil, if_true,
        not_false_eq_true] at h
      simp_all
    · right
      refine ⟨t, rest, rfl, ?_⟩
      simp only [BoundedSemaphore.release, hb, if_neg, if_false,
        Semaphore.release, hw, rescheduleTasks, not_false_eq_true] at h
      simp_all

/-- C4: `BoundedSemaphore.release` with `permits = max_permits` raises the
value-range error no matter what the wait queue holds (the check runs before
any base `Semaphore.release` logic, so no state is produced), release only
succeeds when `permits < max_permits`, and a successful release keeps
`permits ≤ max_permits` and the bound itself unchanged. -/
theorem bounded_release_bound_check (s : BoundedSemaphore) :
    (s._value = s._bound_value →
      BoundedSemaphore.release s =
        .error "BoundedSemaphore released too many times") ∧
    (∀ e, BoundedSemaphore.release s = .error e →
      s._value ≥ s._bound_value) ∧
    (∀ s' r, BoundedSemaphore.release s = .ok (s', r) →
      s._value < s._bound_value ∧ s'._value ≤ s._bound_value ∧
        s'._bound_value = s._bound_value) := by
  refine ⟨fun h => ?_, fun e he => ?_, fun s' r hok => ?_⟩
  · simp [BoundedSemaphore.release, h]
  · by_contra hc
    simp [BoundedSemaphore.release, hc] at he
  · have hc := bsem_release_ok_cases hok
    rcases hc with ⟨hlt, hcase | hcase⟩
    · rcases hcase with ⟨hw, rfl, rfl⟩
      exact ⟨hlt, by simp; omega, rfl⟩
    · rcases hcase with ⟨t, rest, hw, rfl, rfl⟩
      exact ⟨hlt, by simp; omega, rfl⟩

/-- Witness for `bounded_release_bound_check` on a full and a non-full
bounded semaphore. -/
theorem bounded_release_bound_check_witness :
    BoundedSemaphore.release ⟨2, 2, []⟩ =
      .error "BoundedSemaphore released too many times" ∧
    ((1 : Int) < 2 ∧ (2 : Int) ≤ 2 ∧ (2 : Int) = 2) :=
  ⟨(bounded_release_bound_check ⟨2, 2, []⟩).1 rfl,
   (bounded_release_bound_check ⟨1, 2, []⟩).2.2 ⟨2, 2, []⟩ [] rfl⟩

/-- One scheduler-visible transition of a `BoundedSemaphore`: the fast and
suspending paths of the inherited `Semaphore.acquire`, a successful
`BoundedSemaphore.release` (a failing release raises before touching any
state), and removal of a suspended waiter by cancellation. -/
inductive BSemStep : BoundedSemaphore → BoundedSemaphore → Prop
  | acquire_fast (s : BoundedSemaphore) (h : ¬ s._value ≤ 0) :
      BSemStep s { s with _value := s._value - 1 }
  | acquire_suspend (s : BoundedSemaphore) (t : TaskId) (h : s._value ≤ 0) :
      BSemStep s { s with _waiting := waitOnQueue s._waiting t }
  | release_ok (s s' : BoundedSemaphore) (r : List TaskId)
      (h : BoundedSemaphore.release s = .ok (s', r)) : BSemStep s s'
  | cancel (s : BoundedSemaphore) (t : TaskId) :
      BSemStep s { s with _waiting := s._waiting.erase t }

/-- States reachable from a freshly constructed `BoundedSemaphore(k)`. -/
def BSemReachable (k : Int) (s : BoundedSemaphore) : Prop :=
  Relation.ReflTransGen BSemStep ⟨k, k, []⟩ s

/-- Reachable-state invariant of `BoundedSemaphore(k)`: the bound is fixed,
permits stay in `[0, k]`, and positive permits imply an empty wait queue. -/
def BSemInv (k : Int) (s : BoundedSemaphore) : Prop :=
  s._bound_value = k ∧ 0 ≤ s._value ∧ s._value ≤ k ∧
    (0 < s._value → s._waiting = [])

theorem bsemStep_preserves_inv {k : Int} {s s' : BoundedSemaphore}
    (hinv : BSemInv k s) (hstep : BSemStep s s') : BSemInv k s' := by
  obtain ⟨hb, h0, hk, hw⟩ := hinv
  cases hstep with
  | acquire_fast h =>
      exact ⟨hb, by simp; omega, by simp; omega, fun hp => hw (by simp at hp ⊢; omega)⟩
  | acquire_suspend t h =>
      refine ⟨hb, h0, hk, fun hp => ?_⟩
      simp at hp
      omega
  | release_ok s' r h =>
      rcases bsem_release_ok_cases h with ⟨hlt, hcase | hcase⟩
      · rcases hcase with ⟨hwq, rfl, rfl⟩
        exact ⟨hb, by simp; omega, by simp; omega, fun _ => rfl⟩
      · rcases hcase with ⟨t, rest, hwq, rfl, rfl⟩
        refine ⟨hb, h0, hk, fun hp => ?_⟩
        simp at hp
        rw [hw hp] at hwq
        cases hwq
  | cancel t =>
      refine ⟨hb, h0, hk, fun hp => ?_⟩
      simp only
      rw [hw hp]
      rfl

/-- Every state reachable from `BoundedSemaphore(k)` with `0 ≤ k` satisfies
`BSemInv`. -/
theorem bsem_inv_reachable {k : Int} (hk : 0 ≤ k) {s : BoundedSemaphore}
    (h : BSemReachable k s) : BSemInv k s := by
  induction h with
  | refl => exact ⟨rfl, hk, le_refl k, fun _ => rfl⟩
  | tail _ hstep ih => exact bsemStep_preserves_inv ih hstep

/-- C5 counterexample: a `BoundedSemaphore(0)` with one task suspended in
`acquire` is a reachable contended state (waiters non-empty, permits 0), yet
`release()` raises the value-range error instead of handing off, because the
check `self._value >= self._bound_value` (0 ≥ 0) fires first. -/
theorem bounded_release_contended_raises_cex :
    BSemReachable 0 ⟨0, 0, [5]⟩ ∧
    (BoundedSemaphore.mk 0 0 [5])._value = 0 ∧
    (BoundedSemaphore.mk 0 0 [5])._waiting ≠ [] ∧
    BoundedSemaphore.release ⟨0, 0, [5]⟩ =
      .error "BoundedSemaphore released too many times" :=
  ⟨Relation.ReflTransGen.single
      (BSemStep.acquire_suspend ⟨0, 0, []⟩ 5 (le_refl 0)),
   rfl, by decide, rfl⟩

/-- C5 (amended): for a `BoundedSemaphore(k)` with `k ≥ 1`, in every
reachable contended state (waiters non-empty, permits 0) `release()` hands
off to the queue head without incrementing and without raising, and the
over-release error can only be raised in a state with no waiters. -/
theorem bounded_release_contended_handoff (k : Int) (hk : 1 ≤ k)
    (s : BoundedSemaphore) (hs : BSemReachable k s) :
    (s._value = 0 → s._waiting ≠ [] →
      ∃ t rest, s._waiting = t :: rest ∧
        BoundedSemaphore.release s = .ok (⟨0, k, rest⟩, [t])) ∧
    (∀ e, BoundedSemaphore.release s = .error e → s._waiting = []) := by
  obtain ⟨hb, h0, hkv, hw⟩ := bsem_inv_reachable (by omega) hs
  constructor
  · intro hv hne
    rcases hwq : s._waiting with _ | ⟨t, rest⟩
    · exact absurd hwq hne
    · refine ⟨t, rest, rfl, ?_⟩
      have hnb : ¬ s._value ≥ s._bound_value := by omega
      simp only [BoundedSemaphore.release, hnb, if_neg, if_false,
        Semaphore.release, hwq, rescheduleTasks, not_false_eq_true]
      simp [hv, hb]
  · intro e he
    have hge : s._value ≥ s._bound_value :=
      (bounded_release_bound_check s).2.1 e he
    exact hw (by omega)

/-- Witness for `bounded_release_contended_handoff`: a `BoundedSemaphore(1)`
whose permit was taken and a second task suspended; `release` hands off. -/
theorem bounded_release_contended_handoff_witness :
    ∃ t rest, (BoundedSemaphore.mk 0 1 [7])._waiting = t :: rest ∧
      BoundedSemaphore.release ⟨0, 1, [7]⟩ = .ok (⟨0, 1, rest⟩, [t]) :=
  (bounded_release_contended_handoff 1 (le_refl 1) ⟨0, 1, [7]⟩
      (Relation.ReflTransGen.tail
        (Relation.ReflTransGen.single
          (BSemStep.acquire_fast ⟨1, 1, []⟩ (by norm_num)))
        (BSemStep.acquire_suspend ⟨0, 1, []⟩ 7 (le_refl 0)))).1
    rfl (by decide)

/-! ## Event

`Event.__init__`: `_set = False`, `_waiting = kqueue()`. -/

structure Event where
  _set : Bool
  _waiting : List TaskId
deriving Repr, DecidableEq

/-- `Event.is_set`: `return self._set`. -/
def Event.is_set (e : Event) : Bool := e._set

/-- `Event.clear`: `self._set = False`. -/
def Event.clear (e : Event) : Event := { e with _set := false }

/-- `Event.wait`:
```
if self._set:
    return
await _wait_on_queue(self._waiting, 'EVENT_WAIT')
```
Returns the post-state and whether the caller suspended. -/
def Event.wait (e : Event) (t : TaskId) : Event × Bool :=
  if e._set then (e, false)
  else ({ e with _waiting := waitOnQueue e._waiting t }, true)

/-- `Event.set`:
```
self._set = True
await _reschedule_tasks(self._waiting, len(self._waiting))
```
Returns the post-state and the list of resumed tasks. -/
def Event.set (e : Event) : Event × List TaskId :=
  let e' := { e with _set := true }
  let (resumed, rest) := rescheduleTasks e'._waiting e'._waiting.length
  ({ e' with _waiting := rest }, resumed)

/-- C6: `Event.set` marks the event signaled and resumes exactly the tasks
queued at the time of the call (all of them, in order — queue length many),
leaving the queue empty; and `Event.wait` called while signaled returns
immediately, without suspending and without touching the state. -/
theorem event_set_broadcast (e : Event) :
    ((Event.set e).2 = e._waiting ∧
     (Event.set e).2.length = e._waiting.length ∧
     (Event.set e).1._set = true ∧
     (Event.set e).1._waiting = []) ∧
    (∀ t, e._set = true → Event.wait e t = (e, false)) := by
  constructor
  · refine ⟨?_, ?_, rfl, ?_⟩ <;>
      simp [Event.set, rescheduleTasks]
  · intro t h
    simp [Event.wait, h]

/-- Witness for `event_set_broadcast`: a set of an event with two waiters
resumes both; a wait on an already-set event is immediate. -/
theorem event_set_broadcast_witness :
    (Event.set ⟨false, [1, 2]⟩).2 = [1, 2] ∧
    Event.wait ⟨true, [9]⟩ 7 = (⟨true, [9]⟩, false) :=
  ⟨(event_set_broadcast ⟨false, [1, 2]⟩).1.1,
   (event_set_broadcast ⟨true, [9]⟩).2 7 rfl⟩

/-! ## Condition.wait_for -/

/-- Result of `Condition.wait_for`: the first truthy predicate value with
the number of `wait()` calls made before it, the `RuntimeError` raised by a
`wait()` on an unheld lock, or exhaustion of the polled values. -/
inductive WaitForResult (α : Type)
  | found (v : α) (waits : Nat)
  | runtimeError (msg : String) (waits : Nat)
  | noMoreResults
deriving Repr, DecidableEq

/-- `Condition.wait_for`:
```
while True:
    result = predicate()
    if result:
        return result
    await self.wait()
```
`results` lists the successive values returned by `predicate()`, with
truthiness judged by `truthy`; `lockedAt i` is `self.locked()` at the `i`-th
`wait()` call (other tasks hold and release the lock between polls, so it
may differ per iteration); `i` counts the `wait()` calls made so far.  A
`wait()` on an unheld lock raises the contract `RuntimeError`
(`cond_wait_lock_reacquired`); a resumed `wait()` proceeds to the next
poll. -/
def Condition.wait_for (truthy : α → Bool) (lockedAt : Nat → Bool) :
    List α → Nat → WaitForResult α
  | [], _ => .noMoreResults
  | v :: rest, i =>
      if truthy v then .found v i
      else if lockedAt i = false then
        .runtimeError "Can't wait on unacquired lock" i
      else Condition.wait_for truthy lockedAt rest (i + 1)

/-- C10: when the first evaluation of the predicate is truthy,
`Condition.wait_for` returns that value with zero `wait()` calls — hence no
suspension and no unacquired-lock `RuntimeError` — for every lock state,
including one where the lock is never held. -/
theorem cond_wait_for_immediate {α : Type} (truthy : α → Bool)
    (lockedAt : Nat → Bool) (v : α) (rest : List α) (h : truthy v = true) :
    Condition.wait_for truthy lockedAt (v :: rest) 0 = .found v 0 := by
  simp [Condition.wait_for, h]

/-- Witness for `cond_wait_for_immediate`: an immediately-true predicate
with the underlying lock never held. -/
theorem cond_wait_for_immediate_witness :
    Condition.wait_for (fun b : Bool => b) (fun _ => false) [true] 0 =
      .found true 0 :=
  cond_wait_for_immediate (fun b : Bool => b) (fun _ => false) true [] rfl

/-! ## abide

The dispatch helper inspects dynamic attributes of the operation
(`iscoroutinefunction(op)`, `hasattr(op, '__aexit__')`,
`hasattr(op, '__exit__')`, `callable(op)`, `type(op).__name__`); those
observations form the embedded operation descriptor. -/

structure PyOp where
  isCoroutineFunction : Bool
  hasAexit : Bool
  hasExit : Bool
  isCallable : Bool
  typeName : String

/-- What `abide` routes to: `op(*args, **kwargs)`, `op` unmodified,
`_contextadapt(op)`, a raised `TypeError`, or
`workers.run_in_thread(op, *args, **kwargs)`. -/
inductive AbideResult
  | callCoroutine
  | passthrough
  | contextAdapt
  | typeError (msg : String)
  | runInThread
deriving Repr, DecidableEq

/-- `abide`:
```
if iscoroutinefunction(op):
    return op(*args, **kwargs)
if hasattr(op, '__aexit__'):
    return op
if hasattr(op, '__exit__'):
    return _contextadapt(op)
if not callable(op):
    raise TypeError('%r object is not callable' % type(op).__name__)
return workers.run_in_thread(op, *args, **kwargs)
``` -/
def abide (op : PyOp) : AbideResult :=
  if op.isCoroutineFunction then .callCoroutine
  else if op.hasAexit then .passthrough
  else if op.hasExit then .contextAdapt
  else if op.isCallable = false then
    .typeError ("'" ++ op.typeName ++ "' object is not callable")
  else .runInThread

/-- C7: `abide` classifies in exactly the source's priority order — coroutine
function, async context manager, sync context manager, non-callable
(`TypeError` naming the operation's type), worker thread — each route taken
iff all earlier tests failed and its own test holds. -/
theorem abide_classification (op : PyOp) :
    (abide op = .callCoroutine ↔ op.isCoroutineFunction = true) ∧
    (abide op = .passthrough ↔
      op.isCoroutineFunction = false ∧ op.hasAexit = true) ∧
    (abide op = .contextAdapt ↔
      op.isCoroutineFunction = false ∧ op.hasAexit = false ∧
        op.hasExit = true) ∧
    (abide op = .typeError ("'" ++ op.typeName ++ "' object is not callable") ↔
      op.isCoroutineFunction = false ∧ op.hasAexit = false ∧
        op.hasExit = false ∧ op.isCallable = false) ∧
    (abide op = .runInThread ↔
      op.isCoroutineFunction = false ∧ op.hasAexit = false ∧
        op.hasExit = false ∧ op.isCallable = true) := by
  rcases op with ⟨c, ae, ex, ca, n⟩
  cases c <;> cases ae <;> cases ex <;> cases ca <;> simp [abide]

/-! ## _contextadapt

`_contextadapt.__init__`: `manager`, two `threading.Event`s (`start_evt`,
`finish_evt`), `finish_args = ()`, and the two write-once cells
`enter_future` / `exit_future`. -/

/-- Whether `manager.__enter__()` returns normally or raises. -/
inductive EnterOutcome
  | ok
  | raises
deriving Repr, DecidableEq

/-- The `(exc_type, exc, tb)` triple handed to `manager.__exit__`:
`(None, None, None)` stored by the cancellation branch of `__aenter__`, or
the caller's `__aexit__` arguments (abstracted by a token). -/
inductive ExitArgs
  | noneTriple
  | fromCaller (args : Nat)
deriving Repr, DecidableEq

/-- How the cooperative side's suspension on `enter_future` ends: the wait
completes, or a `CancelledError`/`TaskTimeout` is delivered while
suspended. -/
inductive CoopPath
  | completes
  | cancelledDuringEnter
deriving Repr, DecidableEq

/-- Record of the worker thread's calls on the underlying manager. -/
structure ManagerCalls where
  enters : Nat
  exits : Nat
  exitArgsUsed : Option ExitArgs
deriving Repr, DecidableEq

/-- `_contextadapt._handler` once `start_evt.wait()` has returned:
```
try:
    self.enter_future.set_result(self.manager.__enter__())
except Exception as e:
    self.enter_future.set_exception(e)
    return
self.finish_evt.wait()
```
Returns the call record and whether the handler went on to block on
`finish_evt` (it returns early when `__enter__` raised). -/
def handlerEnterPhase (enterOut : EnterOutcome) (m : ManagerCalls) :
    ManagerCalls × Bool :=
  let m' := { m with enters := m.enters + 1 }
  match enterOut with
  | .raises => (m', false)
  | .ok => (m', true)

/-- `_contextadapt._handler` once `finish_evt.wait()` has returned:
```
try:
    self.exit_future.set_result(self.manager.__exit__(*self.finish_args))
except Exception as e:
    self.exit_future.set_exception(e)
``` -/
def handlerExitPhase (finishArgs : ExitArgs) (m : ManagerCalls) :
    ManagerCalls :=
  { m with exits := m.exits + 1, exitArgsUsed := some finishArgs }

/-- The cooperative side's contribution to `finish_evt` / `finish_args`:
the cancellation branch of `__aenter__` stores `(None, None, None)` and sets
`finish_evt` before re-raising; on the normal path the `async with` body
reaches `__aexit__(*args)`, which stores `args` and sets `finish_evt`; when
`enter_future.result()` re-raises the captured `__enter__` exception
instead, `__aexit__` is never entered and `finish_evt` stays unset.
Returns `some finish_args` iff `finish_evt` is eventually set. -/
def coopFinishSignal (enterOut : EnterOutcome) (path : CoopPath)
    (callerArgs : Nat) : Option ExitArgs :=
  match path with
  | .cancelledDuringEnter => some .noneTriple
  | .completes =>
      match enterOut with
      | .ok => some (.fromCaller callerArgs)
      | .raises => none

/-- One complete run of the adapter protocol for one use of
`_contextadapt`: `start_evt` is set by the kernel's `_future_wait`
(modelled from the spec, §6), after which the handler's enter phase runs;
its exit phase runs iff the handler is still blocked on `finish_evt` and the
cooperative side eventually sets it. -/
def adapterProtocol (enterOut : EnterOutcome) (path : CoopPath)
    (callerArgs : Nat) : ManagerCalls :=
  let (m, blocked) := handlerEnterPhase enterOut ⟨0, 0, none⟩
  match blocked, coopFinishSignal enterOut path callerArgs with
  | true, some args => handlerExitPhase args m
  | _, _ => m

/-- C9 counterexample: when `manager.__enter__` raises (no cancellation
involved), the handler returns after capturing the exception and
`manager.__exit__` is never called — not exactly one exit. -/
theorem adapter_exit_skipped_cex :
    (adapterProtocol .raises .completes 0).enters = 1 ∧
    (adapterProtocol .raises .completes 0).exits = 0 ∧
    (adapterProtocol .raises .completes 0).exits ≠ 1 :=
  ⟨rfl, rfl, by decide⟩

/-- C9 (amended): in every complete run of the adapter protocol the
underlying `__enter__` is called exactly once; whenever it succeeds,
`__exit__` is called exactly once — also when the cooperative task was
cancelled while waiting for entry, in which case the exit runs with
`(None, None, None)`. -/
theorem adapter_enter_exit_once (enterOut : EnterOutcome) (path : CoopPath)
    (callerArgs : Nat) :
    (adapterProtocol enterOut path callerArgs).enters = 1 ∧
    (enterOut = .ok →
      (adapterProtocol enterOut path callerArgs).exits = 1 ∧
      (path = .cancelledDuringEnter →
        (adapterProtocol enterOut path callerArgs).exitArgsUsed =
          some .noneTriple)) := by
  cases enterOut <;> cases path <;>
    simp [adapterProtocol, handlerEnterPhase, handlerExitPhase,
      coopFinishSignal]

/-- Witness for `adapter_enter_exit_once`: entry succeeds while the
cooperative task is cancelled during the entry wait; the exit still runs
exactly once, with the `(None, None, None)` arguments. -/
theorem adapter_enter_exit_once_witness :
    (adapterProtocol .ok .cancelledDuringEnter 3).enters = 1 ∧
    (adapterProtocol .ok .cancelledDuringEnter 3).exits = 1 ∧
    (adapterProtocol .ok .cancelledDuringEnter 3).exitArgsUsed =
      some .noneTriple :=
  ⟨(adapter_enter_exit_once .ok .cancelledDuringEnter 3).1,
   ((adapter_enter_exit_once .ok .cancelledDuringEnter 3).2 rfl).1,
   ((adapter_enter_exit_once .ok .cancelledDuringEnter 3).2 rfl).2 rfl⟩

end CurioSync
